import Mathlib

/-!
# Verification of the in-process cache engine (`CacheService`)

Shallow embedding of the cache subsystem of the repository
(`CacheService` in the NestJS backend).  The service's mutable fields
(`cache`, `cacheAnalytics`, `totalRequests`, `totalHits`, `totalMisses`,
`cacheConfig`) become an explicit `CacheState` record; every method becomes a
pure function from the old state (plus the current wall-clock time `now`, in
milliseconds, standing for each method's `new Date()` / `Date.now()` calls) to
the new state and its return value.

Modelling conventions, each mirroring the TypeScript source:
* JavaScript `Map` objects are modelled as insertion-ordered association
  lists: `Map.set` replaces in place (keeping the position) or appends,
  `Map.delete` removes, iteration follows list order.
* Cached payloads (`value: any`) are modelled by their serialized JSON text,
  so `calculateSize(value) = JSON.stringify(value).length` becomes the string
  length of the payload.
* `Array.prototype.sort` with a numeric-key comparator is a stable sort
  (guaranteed by ECMAScript 2019); it is modelled by a stable insertion sort
  on the numeric key extracted by the comparator.
* `uuidv4()` is nondeterministic; the fresh id is threaded in as an argument.
* `Math.random()` inside `calculateAverageResponseTime` is nondeterministic;
  the random sample is threaded in as a rational argument.
* In-place mutation of an entry object that has already been removed from the
  map (`entry.status = 'evicted'` / `'expired'` after `cache.delete`) is
  observable only through the mutated object itself, so eviction-performing
  operations additionally return the list of entries whose `status` field was
  mutated to `evicted` during the call.
* Timestamps are naturals (milliseconds since the epoch); the hour-bucket key
  `toISOString().slice(0, 13)` is in bijection with `t / 3600000`, which is
  used as the analytics map key.
-/

namespace CacheModel

/-- The `status` field of a cache entry (source: `'active' | 'expired' | 'evicted'`). -/
inductive EntryStatus
  | active
  | expired
  | evicted
deriving DecidableEq, Repr

/-- Source interface `CacheEntry`. -/
structure CacheEntry where
  id : String
  key : String
  type : String
  value : String
  size : Nat
  hitCount : Nat
  status : EntryStatus
  lastAccessed : Nat
  expiresAt : Nat
  createdAt : Nat
  ttl : Nat
deriving DecidableEq, Repr

/-- Source union `'lru' | 'lfu' | 'fifo'`. -/
inductive EvictionPolicy
  | lru
  | lfu
  | fifo
deriving DecidableEq, Repr

/-- One per-type override in `CacheConfig.typeConfigs`: `{ ttl, maxSize }`. -/
structure TypeConfig where
  ttl : Nat
  maxSize : Nat
deriving DecidableEq, Repr

/-- Source interface `CacheConfig`. -/
structure CacheConfig where
  defaultTtl : Nat
  maxSize : Nat
  evictionPolicy : EvictionPolicy
  compression : Bool
  typeConfigs : List (String × TypeConfig)
deriving DecidableEq, Repr

/-- Per-type counters inside an hourly analytics bucket
(`{ hits: 0, misses: 0, sets: 0, size: 0 }` in `updateAnalytics`). -/
structure TypeBucket where
  hits : Nat
  misses : Nat
  sets : Nat
  size : Nat
deriving DecidableEq, Repr

/-- One hourly analytics bucket, as created lazily by `updateAnalytics`. -/
structure AnalyticsBucket where
  timestamp : Nat
  hits : Nat
  misses : Nat
  sets : Nat
  deletes : Nat
  expired : Nat
  evicted : Nat
  totalSize : Nat
  byType : List (String × TypeBucket)
deriving DecidableEq, Repr

/-- The analytics actions passed to `updateAnalytics` as string literals. -/
inductive CacheAction
  | hit
  | miss
  | set
  | delete
  | expired
  | evicted
deriving DecidableEq, Repr

/-- The mutable fields of the `CacheService` instance. -/
structure CacheState where
  cache : List (String × CacheEntry)
  cacheAnalytics : List (Nat × AnalyticsBucket)
  totalRequests : Nat
  totalHits : Nat
  totalMisses : Nat
  cacheConfig : CacheConfig
deriving DecidableEq, Repr

/-! ## Insertion-ordered map primitives (JavaScript `Map` semantics) -/

variable {κ : Type} {α : Type}

/-- Model of `Map.prototype.get`. -/
def mapGet [DecidableEq κ] (k : κ) : List (κ × α) → Option α
  | [] => none
  | (k', v) :: rest => if k' = k then some v else mapGet k rest

/-- Model of `Map.prototype.set`: replaces in place (keeping insertion position) or
appends at the end. -/
def mapSet [DecidableEq κ] (k : κ) (v : α) : List (κ × α) → List (κ × α)
  | [] => [(k, v)]
  | (k', v') :: rest => if k' = k then (k, v) :: rest else (k', v') :: mapSet k v rest

/-- Model of `Map.prototype.delete` (ignoring the returned boolean). -/
def mapDelete [DecidableEq κ] (k : κ) : List (κ × α) → List (κ × α)
  | [] => []
  | (k', v') :: rest => if k' = k then rest else (k', v') :: mapDelete k rest

/-- A well-formed map has pairwise-distinct keys (always true of a JS `Map`). -/
def NodupKeys (l : List (κ × α)) : Prop := (l.map Prod.fst).Nodup

/-! ## Stable sorting (model of `Array.prototype.sort` with a numeric key) -/

/-- Insert `x` into a sorted list, after every element of smaller *or equal*
key, matching the stability of `Array.prototype.sort`. -/
def insSorted (f : α → Nat) (x : α) : List α → List α
  | [] => [x]
  | y :: ys => if f x ≤ f y then x :: y :: ys else y :: insSorted f x ys

/-- Stable sort by a numeric key. -/
def sortStable (f : α → Nat) : List α → List α
  | [] => []
  | x :: xs => insSorted f x (sortStable f xs)

/-! ## Size accounting -/

/-- Source `calculateSize`: `JSON.stringify(value).length`; payloads are
modelled by their serialized text. -/
def calculateSize (value : String) : Nat := value.length

/-- The filter used both by `calculateTotalSizeByType` and by `evictEntries`:
`type === 'all' || entry.type === type`. -/
def typeMatches (ty : String) (e : CacheEntry) : Bool := ty == "all" || e.type == ty

/-- Sum of entry sizes of a given type over a raw cache list. -/
def sizeByType (ty : String) (l : List (String × CacheEntry)) : Nat :=
  ((l.filter fun p => typeMatches ty p.2).map fun p => p.2.size).sum

/-- Source `calculateTotalSizeByType`. -/
def calculateTotalSizeByType (s : CacheState) (ty : String) : Nat :=
  sizeByType ty s.cache

/-- Source `calculateTotalSize` (sum over every entry). -/
def calculateTotalSize (s : CacheState) : Nat :=
  (s.cache.map fun p => p.2.size).sum

/-! ## Analytics recording (`updateAnalytics`) -/

/-- Hour-bucket key: `now.toISOString().slice(0, 13)` is in bijection with
the hour index `now / 3600000`. -/
def hourKey (now : Nat) : Nat := now / 3600000

/-- The zeroed per-type counters created on first use of a type. -/
def emptyTypeBucket : TypeBucket := { hits := 0, misses := 0, sets := 0, size := 0 }

/-- The zeroed bucket created lazily for an hour with no events yet. -/
def freshBucket (hk : Nat) : AnalyticsBucket :=
  { timestamp := hk, hits := 0, misses := 0, sets := 0, deletes := 0,
    expired := 0, evicted := 0, totalSize := 0, byType := [] }

/-- Source `updateAnalytics(action, type, size)`. -/
def updateAnalytics (s : CacheState) (now : Nat) (action : CacheAction)
    (ty : String) (size : Nat) : CacheState :=
  let hk := hourKey now
  let analytics := (mapGet hk s.cacheAnalytics).getD (freshBucket hk)
  let analytics :=
    match action with
    | .hit => { analytics with hits := analytics.hits + 1 }
    | .miss => { analytics with misses := analytics.misses + 1 }
    | .set => { analytics with sets := analytics.sets + 1,
                               totalSize := analytics.totalSize + size }
    | .delete => { analytics with deletes := analytics.deletes + 1 }
    | .expired => { analytics with expired := analytics.expired + 1 }
    | .evicted => { analytics with evicted := analytics.evicted + 1 }
  let tb := (mapGet ty analytics.byType).getD emptyTypeBucket
  let tb :=
    match action with
    | .hit => { tb with hits := tb.hits + 1 }
    | .miss => { tb with misses := tb.misses + 1 }
    | .set => { tb with sets := tb.sets + 1, size := tb.size + size }
    | _ => tb
  let analytics := { analytics with byType := mapSet ty tb analytics.byType }
  { s with cacheAnalytics := mapSet hk analytics s.cacheAnalytics }

/-! ## Eviction (`evictEntries`, `enforceMemoryLimits`) -/

/-- The candidate filter of `evictEntries`:
`type === 'all' || entry.type === type`, where `type` may be `undefined`
(when `enforceMemoryLimits` was called without a type), in which case both
disjuncts are false and nothing qualifies. -/
def matchesType : Option String → CacheEntry → Bool
  | some t, e => typeMatches t e
  | none, _ => false

/-- The numeric sort key selected by the `switch` on `evictionPolicy`. -/
def policyKey (p : EvictionPolicy) (e : CacheEntry) : Nat :=
  match p with
  | .lru => e.lastAccessed
  | .lfu => e.hitCount
  | .fifo => e.createdAt

/-- Candidate victims: the cache entries passing the type filter, stably
sorted by the policy's numeric key (JS sort is stable, so ties keep map
insertion order). -/
def evictCandidates (s : CacheState) (type : Option String) :
    List (String × CacheEntry) :=
  sortStable (fun p => policyKey s.cacheConfig.evictionPolicy p.2)
    (s.cache.filter fun p => matchesType type p.2)

/-- The eviction loop of `evictEntries`: walk the sorted candidates, breaking
once `evictedSize >= targetSize`; each victim is removed from the map, its
`status` field is mutated to `evicted` (returned in the second component),
and an `evicted` analytics event is recorded. -/
def evictLoop (now targetSize : Nat) :
    List (String × CacheEntry) → Nat → CacheState → CacheState × List CacheEntry
  | [], _, s => (s, [])
  | (k, e) :: rest, evictedSize, s =>
    if targetSize ≤ evictedSize then (s, [])
    else
      let s1 := updateAnalytics { s with cache := mapDelete k s.cache }
        now .evicted e.type e.size
      let r := evictLoop now targetSize rest (evictedSize + e.size) s1
      (r.1, { e with status := .evicted } :: r.2)

/-- Source `evictEntries(type, targetSize)`. -/
def evictEntries (s : CacheState) (now : Nat) (type : Option String)
    (targetSize : Nat) : CacheState × List CacheEntry :=
  evictLoop now targetSize (evictCandidates s type) 0 s

/-- Source `enforceMemoryLimits(type?, newEntrySize = 0)`.  JavaScript
truthiness: both `type ? typeConfigs[type] : null` and `type || 'all'` treat
`undefined` and the empty string alike, while `evictEntries` receives the
*original* `type` value. -/
def enforceMemoryLimits (s : CacheState) (now : Nat) (type : Option String)
    (newEntrySize : Nat) : CacheState × List CacheEntry :=
  let truthy : Option String :=
    match type with
    | some t => if t = "" then none else some t
    | none => none
  let typeConfig := truthy.bind fun t => mapGet t s.cacheConfig.typeConfigs
  let maxSize :=
    match typeConfig with
    | some tc => tc.maxSize
    | none => s.cacheConfig.maxSize
  let currentSize := calculateTotalSizeByType s (truthy.getD "all") + newEntrySize
  if maxSize < currentSize then evictEntries s now type (currentSize - maxSize)
  else (s, [])

/-! ## Core operations -/

/-- Source `set(key, value, ttl?, type = 'system')`.  `ttl || config.ttl`
falls back on a missing *or zero* caller ttl (JS falsiness of `0`).  The
second component is the list of entries evicted by the admission pass. -/
def set (s : CacheState) (now : Nat) (key value : String) (ttl : Option Nat)
    (type : String) (newId : String) : CacheState × List CacheEntry :=
  let config := (mapGet type s.cacheConfig.typeConfigs).getD
    { ttl := s.cacheConfig.defaultTtl, maxSize := s.cacheConfig.maxSize }
  let entryTtl :=
    match ttl with
    | some t => if t = 0 then config.ttl else t
    | none => config.ttl
  let expiresAt := now + entryTtl * 1000
  let size := calculateSize value
  let r := enforceMemoryLimits s now (some type) size
  let entry : CacheEntry :=
    { id := newId, key := key, type := type, value := value, size := size,
      hitCount := 0, status := .active, lastAccessed := now,
      expiresAt := expiresAt, createdAt := now, ttl := entryTtl }
  (updateAnalytics { r.1 with cache := mapSet key entry r.1.cache } now .set type size,
   r.2)

/-- Source `get(key)`.  On a miss the analytics type is
`entry?.type || 'unknown'`, i.e. `"unknown"` since `entry` is `undefined`;
on a stale hit the entry is removed (its orphaned `status = 'expired'`
mutation is unobservable once it left the map) and an `expired` event is
recorded; on a fresh hit `hitCount`/`lastAccessed` are updated in place. -/
def get (s : CacheState) (now : Nat) (key : String) : Option String × CacheState :=
  let s := { s with totalRequests := s.totalRequests + 1 }
  match mapGet key s.cache with
  | none =>
    let s := { s with totalMisses := s.totalMisses + 1 }
    (none, updateAnalytics s now .miss "unknown" 0)
  | some entry =>
    if entry.expiresAt < now then
      let s := { s with cache := mapDelete key s.cache,
                        totalMisses := s.totalMisses + 1 }
      (none, updateAnalytics s now .expired entry.type 0)
    else
      let e := { entry with hitCount := entry.hitCount + 1, lastAccessed := now }
      let s := { s with cache := mapSet key e s.cache,
                        totalHits := s.totalHits + 1 }
      (some entry.value, updateAnalytics s now .hit entry.type entry.size)

/-- Source `delete(key)`: no staleness check — any present entry (expired or
not) is removed, a `delete` event recorded, and `true` returned. -/
def delete (s : CacheState) (now : Nat) (key : String) : Bool × CacheState :=
  match mapGet key s.cache with
  | none => (false, s)
  | some entry =>
    (true, updateAnalytics { s with cache := mapDelete key s.cache }
      now .delete entry.type entry.size)

/-- Source `exists(key)`: staleness check as in `get`, removing a stale
entry, but touching neither counters, analytics, nor entry metadata. -/
def exists_ (s : CacheState) (now : Nat) (key : String) : Bool × CacheState :=
  match mapGet key s.cache with
  | none => (false, s)
  | some entry =>
    if entry.expiresAt < now then (false, { s with cache := mapDelete key s.cache })
    else (true, s)

/-- Source `deleteCacheEntry(key)`: wraps `delete`, throwing
`NotFoundException('Cache entry not found')` when it returned `false`. -/
def deleteCacheEntry (s : CacheState) (now : Nat) (key : String) :
    Except String CacheState :=
  let r := delete s now key
  if r.1 then .ok r.2 else .error "Cache entry not found"

/-! ## Configuration update -/

/-- A partial configuration, as accepted by `updateCacheConfig`
(`Object.assign` merges only the fields present on the DTO, shallowly:
a supplied `typeConfigs` replaces the whole table). -/
structure CacheConfigDto where
  defaultTtl : Option Nat := none
  maxSize : Option Nat := none
  evictionPolicy : Option EvictionPolicy := none
  compression : Option Bool := none
  typeConfigs : Option (List (String × TypeConfig)) := none

/-- Model of `Object.assign(this.cacheConfig, cacheConfigDto)`. -/
def mergeConfig (c : CacheConfig) (d : CacheConfigDto) : CacheConfig :=
  { defaultTtl := d.defaultTtl.getD c.defaultTtl,
    maxSize := d.maxSize.getD c.maxSize,
    evictionPolicy := d.evictionPolicy.getD c.evictionPolicy,
    compression := d.compression.getD c.compression,
    typeConfigs := d.typeConfigs.getD c.typeConfigs }

/-- Source `updateCacheConfig(cacheConfigDto)`: merge, then
`enforceMemoryLimits()` *with no arguments*. -/
def updateCacheConfig (s : CacheState) (now : Nat) (dto : CacheConfigDto) :
    CacheState × List CacheEntry :=
  let s := { s with cacheConfig := mergeConfig s.cacheConfig dto }
  enforceMemoryLimits s now none 0

/-! ## Analytics queries -/

/-- Source `calculateAverageResponseTime`: `Math.random() * 5 + 1`, with the
random sample passed in explicitly. -/
def calculateAverageResponseTime (rand : ℚ) : ℚ := rand * 5 + 1

/-- Source `getStartDate(period)` (Nat subtraction: times are at/after the
epoch, and queries are issued after the window length has elapsed). -/
def getStartDate (now : Nat) (period : String) : Nat :=
  match period with
  | "1h" => now - 60 * 60 * 1000
  | "24h" => now - 24 * 60 * 60 * 1000
  | "7d" => now - 7 * 24 * 60 * 60 * 1000
  | "30d" => now - 30 * 24 * 60 * 60 * 1000
  | _ => now - 24 * 60 * 60 * 1000

/-- One element of `generateHourlyData`'s result. -/
structure HourPoint where
  hour : Nat
  hits : Nat
  misses : Nat
  hitRate : ℚ
  avgResponseTime : ℚ
deriving DecidableEq, Repr

/-- Source `generateHourlyData(startDate, endDate)`: one point per hour step
`startDate + i * 3600000 <= endDate`, each reading the bucket for that hour
(zeros when absent) and deriving `hits / (hits + misses)` (0 on empty). -/
def generateHourlyData (s : CacheState) (startDate endDate : Nat) (rand : ℚ) :
    List HourPoint :=
  if startDate ≤ endDate then
    (List.range ((endDate - startDate) / 3600000 + 1)).map fun i =>
      let t := startDate + i * 3600000
      let a := (mapGet (hourKey t) s.cacheAnalytics).getD (freshBucket (hourKey t))
      { hour := hourKey t, hits := a.hits, misses := a.misses,
        hitRate := if 0 < a.hits + a.misses
          then (a.hits : ℚ) / ((a.hits : ℚ) + (a.misses : ℚ)) else 0,
        avgResponseTime := calculateAverageResponseTime rand }
  else []

/-- The aggregated report returned by `getAnalyticsData` (the
`typeBreakdown` field is omitted: no claim touches it, and its
`totalMisses * (entries.length / cache.size)` estimate divides by zero —
an IEEE `NaN` — on an empty cache). -/
structure AnalyticsReport where
  period : String
  hitRate : ℚ
  missRate : ℚ
  avgResponseTime : ℚ
  totalRequests : Nat
  totalHits : Nat
  totalMisses : Nat
  peakMemoryUsage : Nat
  avgMemoryUsage : Nat
  hourlyData : List HourPoint

/-- Source `getAnalyticsData(startDate, endDate, cacheType?)`.  Note: the
top-level rates come from the *lifetime* counters `totalHits` /
`totalRequests`, not from the requested window, and `cacheType` is accepted
but never used by the source body. -/
def getAnalyticsData (s : CacheState) (startDate endDate : Nat)
    (cacheType : Option String) (rand : ℚ) : AnalyticsReport :=
  let hitRate : ℚ :=
    if 0 < s.totalRequests then (s.totalHits : ℚ) / (s.totalRequests : ℚ) else 0
  { period := "",
    hitRate := hitRate,
    missRate := 1 - hitRate,
    avgResponseTime := calculateAverageResponseTime rand,
    totalRequests := s.totalRequests,
    totalHits := s.totalHits,
    totalMisses := s.totalMisses,
    peakMemoryUsage := s.cacheConfig.maxSize,
    avgMemoryUsage := calculateTotalSize s,
    hourlyData := generateHourlyData s startDate endDate rand }

/-- Source `getCacheAnalytics(period?, cacheType?)`:
`period || '24h'` (JS falsiness: `undefined` and `""` both default). -/
def getCacheAnalytics (s : CacheState) (now : Nat) (period : Option String)
    (cacheType : Option String) (rand : ℚ) : AnalyticsReport :=
  let analyticsPeriod :=
    match period with
    | some p => if p = "" then "24h" else p
    | none => "24h"
  let startDate := getStartDate now analyticsPeriod
  { getAnalyticsData s startDate now cacheType rand with period := analyticsPeriod }

/-- The configuration the service starts with (source lines 37–50). -/
def defaultCacheConfig : CacheConfig :=
  { defaultTtl := 3600,
    maxSize := 100 * 1024 * 1024,
    evictionPolicy := .lru,
    compression := true,
    typeConfigs :=
      [("user", ⟨1800, 50 * 1024 * 1024⟩),
       ("project", ⟨7200, 100 * 1024 * 1024⟩),
       ("figma", ⟨3600, 20 * 1024 * 1024⟩),
       ("documentation", ⟨86400, 100 * 1024 * 1024⟩),
       ("analytics", ⟨300, 5 * 1024 * 1024⟩),
       ("system", ⟨600, 1 * 1024 * 1024⟩)] }

/-- A service state with no entries and no recorded analytics yet. -/
def emptyState (cfg : CacheConfig) : CacheState :=
  { cache := [], cacheAnalytics := [], totalRequests := 0, totalHits := 0,
    totalMisses := 0, cacheConfig := cfg }

/-! ## Basic lemmas about the map primitives -/

@[simp] theorem mapGet_mapSet_self [DecidableEq κ] (k : κ) (v : α)
    (l : List (κ × α)) : mapGet k (mapSet k v l) = some v := by
  induction l with
  | nil => simp [mapGet, mapSet]
  | cons p rest ih =>
    obtain ⟨k', v'⟩ := p
    by_cases h : k' = k <;> simp [mapGet, mapSet, h, ih]

theorem mapGet_mapSet_ne [DecidableEq κ] {k k' : κ} (v : α)
    (l : List (κ × α)) (h : k' ≠ k) :
    mapGet k' (mapSet k v l) = mapGet k' l := by
  have hk : ¬ k = k' := Ne.symm h
  induction l with
  | nil => simp [mapGet, mapSet, hk]
  | cons p rest ih =>
    obtain ⟨k₀, v₀⟩ := p
    by_cases h0 : k₀ = k
    · subst h0
      simp [mapGet, mapSet, hk]
    · by_cases h1 : k₀ = k' <;> simp [mapGet, mapSet, h0, h1, ih, h]

theorem mapGet_mapDelete_ne [DecidableEq κ] {k k' : κ}
    (l : List (κ × α)) (h : k' ≠ k) :
    mapGet k' (mapDelete k l) = mapGet k' l := by
  have hk : ¬ k = k' := Ne.symm h
  induction l with
  | nil => simp [mapDelete]
  | cons p rest ih =>
    obtain ⟨k₀, v₀⟩ := p
    by_cases h0 : k₀ = k
    · subst h0
      simp [mapGet, mapDelete, hk]
    · by_cases h1 : k₀ = k' <;> simp [mapGet, mapDelete, h0, h1, ih, h]

theorem mapDelete_sublist [DecidableEq κ] (k : κ) (l : List (κ × α)) :
    List.Sublist (mapDelete k l) l := by
  induction l with
  | nil => simp [mapDelete]
  | cons p rest ih =>
    obtain ⟨k₀, v₀⟩ := p
    by_cases h : k₀ = k
    · simp only [mapDelete, h, if_pos rfl]
      exact List.sublist_cons_self _ _
    · simp only [mapDelete, if_neg h]
      exact ih.cons₂ _

theorem nodupKeys_mapDelete [DecidableEq κ] (k : κ) {l : List (κ × α)}
    (h : NodupKeys l) : NodupKeys (mapDelete k l) :=
  h.sublist ((mapDelete_sublist k l).map Prod.fst)

/-- In a well-formed map, membership of a pair determines the lookup. -/
theorem mapGet_of_mem [DecidableEq κ] {l : List (κ × α)} {p : κ × α}
    (hnd : NodupKeys l) (hmem : p ∈ l) : mapGet p.1 l = some p.2 := by
  induction l with
  | nil => cases hmem
  | cons q rest ih =>
    obtain ⟨k₀, v₀⟩ := q
    rcases List.mem_cons.mp hmem with hmem | hmem
    · subst hmem
      simp [mapGet]
    · have hnd0 : (k₀ :: rest.map Prod.fst).Nodup := hnd
      have hk : k₀ ≠ p.1 := by
        intro he
        have hmf : p.1 ∈ rest.map Prod.fst := List.mem_map_of_mem Prod.fst hmem
        rw [← he] at hmf
        exact (List.nodup_cons.mp hnd0).1 hmf
      simp only [mapGet, if_neg hk]
      exact ih (List.nodup_cons.mp hnd0).2 hmem

/-! ## Frame lemmas for `updateAnalytics` -/

@[simp] theorem updateAnalytics_cache (s : CacheState) (now : Nat)
    (a : CacheAction) (ty : String) (z : Nat) :
    (updateAnalytics s now a ty z).cache = s.cache := rfl

@[simp] theorem updateAnalytics_totalRequests (s : CacheState) (now : Nat)
    (a : CacheAction) (ty : String) (z : Nat) :
    (updateAnalytics s now a ty z).totalRequests = s.totalRequests := rfl

@[simp] theorem updateAnalytics_totalHits (s : CacheState) (now : Nat)
    (a : CacheAction) (ty : String) (z : Nat) :
    (updateAnalytics s now a ty z).totalHits = s.totalHits := rfl

@[simp] theorem updateAnalytics_totalMisses (s : CacheState) (now : Nat)
    (a : CacheAction) (ty : String) (z : Nat) :
    (updateAnalytics s now a ty z).totalMisses = s.totalMisses := rfl

@[simp] theorem updateAnalytics_cacheConfig (s : CacheState) (now : Nat)
    (a : CacheAction) (ty : String) (z : Nat) :
    (updateAnalytics s now a ty z).cacheConfig = s.cacheConfig := rfl

/-! ## C1: `set` followed by a timely `get` returns the stored value -/

/-- Claim C1:  For every key `k`, value `v`, and positive `ttl`, a call
`set(k, v, ttl)` followed immediately by `get(k)` before `ttl` seconds
elapse (no intervening delete, clear, or eviction of `k`) returns `v`. -/
theorem set_then_get_returns_value (s : CacheState) (now now' : Nat)
    (key value type newId : String) (ttl : Nat)
    (httl : 0 < ttl) (hfresh : now' < now + ttl * 1000) :
    (get (set s now key value (some ttl) type newId).1 now' key).1 = some value := by
  have hne : ¬ ttl = 0 := by omega
  have hstale : ¬ (now + ttl * 1000 < now') := by omega
  simp [set, get, hne, hstale]

/-- Witness for `set_then_get_returns_value` at a concrete input. -/
theorem set_then_get_returns_value_witness :
    0 < 5 ∧ 3000 < 0 + 5 * 1000 ∧
    (get (set (emptyState defaultCacheConfig) 0 "k" "v" (some 5) "system" "id").1
      3000 "k").1 = some "v" :=
  ⟨by decide, by decide,
    set_then_get_returns_value (emptyState defaultCacheConfig) 0 3000
      "k" "v" "system" "id" 5 (by decide) (by decide)⟩

/-! ## C4: the spec's LRU scenario (category `user`, quota 100, four 40-byte sets) -/

/-- Configuration for the spec scenario: category `user` with
`maxSizeBytes = 100` under the `lru` policy. -/
def scenarioLruConfig : CacheConfig :=
  { defaultTtl := 3600, maxSize := 100000, evictionPolicy := .lru,
    compression := true, typeConfigs := [("user", ⟨1800, 100⟩)] }

/-- A 40-byte payload. -/
def fortyByteValue : String := String.mk (List.replicate 40 'x')

def lruStateA : CacheState × List CacheEntry :=
  set (emptyState scenarioLruConfig) 0 "a" fortyByteValue none "user" "id-a"

def lruStateB : CacheState × List CacheEntry :=
  set lruStateA.1 1000 "b" fortyByteValue none "user" "id-b"

def lruStateC : CacheState × List CacheEntry :=
  set lruStateB.1 2000 "c" fortyByteValue none "user" "id-c"

def lruStateD : CacheState × List CacheEntry :=
  set lruStateC.1 3000 "d" fortyByteValue none "user" "id-d"

/-- Claim C4, counterexample:  In the spec scenario (`user` quota 100 bytes,
`lru`, four 40-byte inserts `a`, `b`, `c`, `d` at increasing times with no
touches), the final state does *not* keep `{b, c, d}` active: `b` is gone
(and so is `a`), because three 40-byte entries never fit in 100 bytes in the
first place, and each admission pass keeps evicting until the freed bytes
reach the whole overage. -/
theorem lru_scenario_b_is_not_active :
    mapGet "b" lruStateD.1.cache = none ∧ mapGet "a" lruStateD.1.cache = none := by
  decide

/-- Claim C4, amended:  In the spec scenario, inserting `c` already evicts `a`
(120 > 100), and inserting `d` then evicts `b`; each victim's `status` is
mutated to `evicted`, the final active set is `{c, d}`, and the `user`
category then holds 80 bytes. -/
theorem lru_scenario_actual_evictions :
    lruStateC.2.map (fun e => (e.key, e.status)) = [("a", EntryStatus.evicted)]
    ∧ lruStateD.2.map (fun e => (e.key, e.status)) = [("b", EntryStatus.evicted)]
    ∧ lruStateD.1.cache.map Prod.fst = ["c", "d"]
    ∧ calculateTotalSizeByType lruStateD.1 "user" = 80 := by
  decide

/-! ## C5: shrinking a category quota via `updateCacheConfig` -/

/-- A 50-byte payload. -/
def fiftyByteValue : String := String.mk (List.replicate 50 'x')

def shrinkState0 : CacheState × List CacheEntry :=
  set (emptyState scenarioLruConfig) 0 "u1" fiftyByteValue none "user" "id-u"

/-- The partial-config update of the spec scenario:
`{categoryQuotas: {user: {maxSizeBytes: 10}}}`. -/
def shrinkDto : CacheConfigDto := { typeConfigs := some [("user", ⟨1800, 10⟩)] }

def shrinkState1 : CacheState × List CacheEntry :=
  updateCacheConfig shrinkState0.1 1000 shrinkDto

/-- Claim C5, counterexample:  Shrinking the `user` quota to 10 bytes while
`user` holds 50 bytes of active entries does *not* evict anything before the
call returns: the category still holds 50 bytes (> 10) and the entry is
still present, even though the merged config now caps `user` at 10. -/
theorem shrink_quota_does_not_evict :
    calculateTotalSizeByType shrinkState1.1 "user" = 50
    ∧ (mapGet "user" shrinkState1.1.cacheConfig.typeConfigs).map (fun tc => tc.maxSize)
        = some 10
    ∧ (mapGet "u1" shrinkState1.1.cache).isSome = true := by
  decide

/-- Claim C5, amended:  `updateCacheConfig` merges the partial config and then
calls `enforceMemoryLimits()` with no category, whose eviction pass filters
on `entry.type === undefined` and therefore selects no victims: the cache is
left byte-for-byte unchanged (no per-category re-enforcement happens until a
later `set`). -/
theorem updateCacheConfig_never_evicts (s : CacheState) (now : Nat)
    (dto : CacheConfigDto) :
    (updateCacheConfig s now dto).1.cache = s.cache
    ∧ (updateCacheConfig s now dto).1.cacheConfig = mergeConfig s.cacheConfig dto
    ∧ (updateCacheConfig s now dto).2 = [] := by
  have hnone : ∀ (s' : CacheState) (tsz : Nat), evictEntries s' now none tsz = (s', []) := by
    intro s' tsz
    simp [evictEntries, evictCandidates, matchesType, sortStable, evictLoop]
  unfold updateCacheConfig enforceMemoryLimits
  split <;> simp [hnone]

/-! ## C6: LFU tie-breaking

The LFU comparator is `a.hitCount - b.hitCount` with no secondary key;
`Array.prototype.sort` is stable, so equal-`hitCount` entries stay in map
insertion order.  First the generic stability facts about `sortStable`. -/

theorem insSorted_filter_key (f : α → Nat) (x : α) (l : List α) (n : Nat) :
    (insSorted f x l).filter (fun y => f y == n)
      = if f x = n then x :: l.filter (fun y => f y == n)
        else l.filter (fun y => f y == n) := by
  induction l with
  | nil =>
    by_cases hx : f x = n <;> simp [insSorted, List.filter_cons, hx]
  | cons y ys ih =>
    by_cases hxy : f x ≤ f y
    · simp only [insSorted, if_pos hxy]
      by_cases hx : f x = n <;> simp [List.filter_cons, hx]
    · simp only [insSorted, if_neg hxy]
      have hlt : f y < f x := Nat.lt_of_not_le hxy
      by_cases hx : f x = n
      · have hy : ¬ f y = n := by omega
        simp [List.filter_cons, hx, hy, ih]
      · by_cases hy : f y = n <;> simp [List.filter_cons, hx, hy, ih]

/-- Stability of the sort: the equal-key elements of the result appear in
their original order. -/
theorem sortStable_filter_key (f : α → Nat) (l : List α) (n : Nat) :
    (sortStable f l).filter (fun y => f y == n) = l.filter (fun y => f y == n) := by
  induction l with
  | nil => rfl
  | cons x xs ih =>
    by_cases hx : f x = n <;>
      simp [sortStable, insSorted_filter_key, List.filter_cons, hx, ih]

theorem insSorted_perm (f : α → Nat) (x : α) :
    ∀ l, List.Perm (insSorted f x l) (x :: l) := by
  intro l
  induction l with
  | nil => exact List.Perm.refl _
  | cons y ys ih =>
    by_cases h : f x ≤ f y
    · simp only [insSorted, if_pos h]
      exact List.Perm.refl _
    · simp only [insSorted, if_neg h]
      exact (List.Perm.cons y ih).trans (List.Perm.swap x y ys)

theorem sortStable_perm (f : α → Nat) :
    ∀ l, List.Perm (sortStable f l) l := by
  intro l
  induction l with
  | nil => exact List.Perm.refl _
  | cons x xs ih =>
    exact (insSorted_perm f x (sortStable f xs)).trans (List.Perm.cons x ih)

theorem insSorted_pairwise (f : α → Nat) (x : α) :
    ∀ l, List.Pairwise (fun a b => f a ≤ f b) l →
      List.Pairwise (fun a b => f a ≤ f b) (insSorted f x l) := by
  intro l
  induction l with
  | nil => intro _; simp [insSorted]
  | cons y ys ih =>
    intro hl
    rcases List.pairwise_cons.mp hl with ⟨hy, hys⟩
    by_cases hxy : f x ≤ f y
    · simp only [insSorted, if_pos hxy]
      refine List.pairwise_cons.mpr ⟨?_, hl⟩
      intro b hb
      rcases List.mem_cons.mp hb with rfl | hb
      · exact hxy
      · exact le_trans hxy (hy b hb)
    · simp only [insSorted, if_neg hxy]
      have hyx : f y ≤ f x := le_of_lt (Nat.lt_of_not_le hxy)
      refine List.pairwise_cons.mpr ⟨?_, ih hys⟩
      intro b hb
      have hb' : b ∈ x :: ys := (insSorted_perm f x ys).mem_iff.mp hb
      rcases List.mem_cons.mp hb' with rfl | hb'
      · exact hyx
      · exact hy b hb'

/-- The sort really does order its output by the key, nondecreasing
(lowest-key element first). -/
theorem sortStable_pairwise (f : α → Nat) :
    ∀ l, List.Pairwise (fun a b => f a ≤ f b) (sortStable f l) := by
  intro l
  induction l with
  | nil => simp [sortStable]
  | cons x xs ih => exact insSorted_pairwise f x _ ih

/-- The eviction loop consumes its candidate list in order: the victims of
any pass are exactly an initial prefix of the candidates. -/
theorem evictLoop_take (now targetSize : Nat) :
    ∀ (cs : List (String × CacheEntry)) (a : Nat) (s : CacheState),
      ∃ k, (evictLoop now targetSize cs a s).2
        = (cs.take k).map (fun p => { p.2 with status := EntryStatus.evicted }) := by
  intro cs
  induction cs with
  | nil =>
    intro a s
    exact ⟨0, rfl⟩
  | cons p rest ih =>
    intro a s
    obtain ⟨k, e⟩ := p
    by_cases hbr : targetSize ≤ a
    · refine ⟨0, ?_⟩
      simp [evictLoop, hbr]
    · obtain ⟨n, hn⟩ := ih (a + e.size)
        (updateAnalytics { s with cache := mapDelete k s.cache } now .evicted e.type e.size)
      refine ⟨n + 1, ?_⟩
      simp only [evictLoop, if_neg hbr, List.take_succ_cons, List.map_cons]
      rw [hn]

/-- The LFU scenario: two 40-byte `user` entries inserted at times 0 and
1000, then read in the order `e2`, `e1`, so that both have `hitCount = 1`
and `e2` has the older `lastAccessedAt`. -/
def scenarioLfuConfig : CacheConfig :=
  { defaultTtl := 3600, maxSize := 100000, evictionPolicy := .lfu,
    compression := true, typeConfigs := [("user", ⟨1800, 100⟩)] }

def lfuState2 : CacheState :=
  (set (set (emptyState scenarioLfuConfig) 0 "e1" fortyByteValue none "user" "id-1").1
    1000 "e2" fortyByteValue none "user" "id-2").1

def lfuState4 : CacheState :=
  (get (get lfuState2 2000 "e2").2 3000 "e1").2

def lfuState5 : CacheState × List CacheEntry :=
  set lfuState4 4000 "e3" fortyByteValue none "user" "id-3"

/-- Claim C6, counterexample:  With the LFU policy, `e1` and `e2` are tied at
`hitCount = 1` and `e2` has the strictly older `lastAccessedAt`
(2000 < 3000), so the claim demands that `e2` be evicted first; but the
eviction triggered by inserting `e3` removes `e1` (the earlier-inserted
entry) and keeps `e2`. -/
theorem lfu_tie_not_broken_by_lastAccessed :
    ((mapGet "e1" lfuState4.cache).map (fun e => e.hitCount) = some 1)
    ∧ ((mapGet "e2" lfuState4.cache).map (fun e => e.hitCount) = some 1)
    ∧ ((mapGet "e2" lfuState4.cache).map (fun e => e.lastAccessed) = some 2000)
    ∧ ((mapGet "e1" lfuState4.cache).map (fun e => e.lastAccessed) = some 3000)
    ∧ lfuState5.2.map (fun e => e.key) = ["e1"]
    ∧ (mapGet "e2" lfuState5.1.cache).isSome = true := by
  decide

/-- Claim C6, amended: under the LFU policy the eviction pass does take its
victims in order of lowest `hitCount` first — the candidate list is ordered
by nondecreasing `hitCount` and every pass removes exactly an initial prefix
of it — but among entries with equal `hitCount` the tie is broken by map
insertion order (the comparator is only `a.hitCount - b.hitCount` and the
sort is stable), not by oldest `lastAccessedAt`: for every hit count `n`,
the candidates with `hitCount = n` appear in the eviction order exactly as
they appear in the cache. -/
theorem lfu_ties_follow_insertion_order (s : CacheState) (type : Option String)
    (n now targetSize : Nat) (hp : s.cacheConfig.evictionPolicy = .lfu) :
    List.Pairwise
        (fun p q : String × CacheEntry => p.2.hitCount ≤ q.2.hitCount)
        (evictCandidates s type)
    ∧ (∃ k, (evictEntries s now type targetSize).2
          = ((evictCandidates s type).take k).map
              (fun p => { p.2 with status := EntryStatus.evicted }))
    ∧ (evictCandidates s type).filter
          (fun p : String × CacheEntry => p.2.hitCount == n)
        = (s.cache.filter fun p => matchesType type p.2).filter
            (fun p : String × CacheEntry => p.2.hitCount == n) := by
  refine ⟨?_, ?_, ?_⟩
  · unfold evictCandidates
    rw [hp]
    exact sortStable_pairwise (fun p : String × CacheEntry => policyKey .lfu p.2) _
  · unfold evictEntries
    exact evictLoop_take now targetSize (evictCandidates s type) 0 s
  · unfold evictCandidates
    rw [hp]
    exact sortStable_filter_key (fun p : String × CacheEntry => policyKey .lfu p.2) _ n

/-- Witness for `lfu_ties_follow_insertion_order` on the concrete tied
state. -/
theorem lfu_ties_follow_insertion_order_witness :
    List.Pairwise
        (fun p q : String × CacheEntry => p.2.hitCount ≤ q.2.hitCount)
        (evictCandidates lfuState4 (some "user"))
    ∧ (evictCandidates lfuState4 (some "user")).filter
          (fun p : String × CacheEntry => p.2.hitCount == 1)
        = (lfuState4.cache.filter fun p => matchesType (some "user") p.2).filter
            (fun p : String × CacheEntry => p.2.hitCount == 1) :=
  ⟨(lfu_ties_follow_insertion_order lfuState4 (some "user") 1 4000 20 (by decide)).1,
   (lfu_ties_follow_insertion_order lfuState4 (some "user") 1 4000 20 (by decide)).2.2⟩

/-! ## C7: `delete` / `deleteCacheEntry` and staleness -/

/-- Whether an `Except` result is a success (no exception thrown). -/
def exceptOk {ε β : Type} : Except ε β → Bool
  | .ok _ => true
  | .error _ => false

/-- The `deletes` counter of the analytics bucket for hour `h` (zero when the
bucket does not exist yet). -/
def deletesAt (s : CacheState) (h : Nat) : Nat :=
  ((mapGet h s.cacheAnalytics).getD (freshBucket h)).deletes

/-- A state holding the entry `x` with `ttl = 1` second, inserted at time 0,
hence `expiresAt = 1000`. -/
def expiredEntryState : CacheState :=
  (set (emptyState defaultCacheConfig) 0 "x" "v" (some 1) "system" "id-x").1

/-- Claim C7, counterexample:  At wall time 2000 the stored entry `x` is
already expired (`expiresAt = 1000 < 2000`), yet the administrative delete
does *not* raise NotFound — `delete` never consults `expiresAt`, so the
expired-but-present entry is deleted successfully (and `delete` returns
`true`, recording a `delete` event). -/
theorem admin_delete_succeeds_on_expired_entry :
    ((mapGet "x" expiredEntryState.cache).map (fun e => e.expiresAt) = some 1000)
    ∧ (1000 < 2000)
    ∧ exceptOk (deleteCacheEntry expiredEntryState 2000 "x") = true
    ∧ (delete expiredEntryState 2000 "x").1 = true := by
  decide

/-- Claim C7, amended:  `deleteCacheEntry` raises NotFound exactly when the
key is *absent* (expiry is never consulted); `delete(key)` returns `true`
iff the key is present — any present entry, expired or not, is removed and a
`delete` analytics event recorded — and returns `false` with the state
completely unchanged when the key is absent. -/
theorem delete_notfound_iff_absent (s : CacheState) (now : Nat) (key : String) :
    (exceptOk (deleteCacheEntry s now key) = (mapGet key s.cache).isSome)
    ∧ ((delete s now key).1 = (mapGet key s.cache).isSome)
    ∧ (mapGet key s.cache = none → (delete s now key).2 = s)
    ∧ (∀ e, mapGet key s.cache = some e →
        (delete s now key).2.cache = mapDelete key s.cache
        ∧ deletesAt (delete s now key).2 (hourKey now)
            = deletesAt s (hourKey now) + 1) := by
  cases hc : mapGet key s.cache with
  | none =>
    refine ⟨?_, ?_, fun _ => by simp [delete, hc], fun e he => by simp [hc] at he⟩ <;>
      simp [delete, deleteCacheEntry, exceptOk, hc]
  | some e =>
    refine ⟨?_, ?_, fun h => by simp [hc] at h, fun e' he' => ⟨?_, ?_⟩⟩
    · simp [delete, deleteCacheEntry, exceptOk, hc]
    · simp [delete, hc]
    · simp [delete, hc]
    · simp only [delete, hc]
      simp [deletesAt, updateAnalytics, mapGet_mapSet_self]

/-- Witness for `delete_notfound_iff_absent`: deleting an absent key leaves
the state untouched. -/
theorem delete_notfound_iff_absent_witness :
    (delete (emptyState defaultCacheConfig) 0 "nope").2 = emptyState defaultCacheConfig :=
  (delete_notfound_iff_absent (emptyState defaultCacheConfig) 0 "nope").2.2.1 rfl

/-! ## C8: `exists` agrees with `get` but has no side effects -/

/-- Claim C8:  `exists(key)` returns exactly the presence/staleness verdict
`get(key)` would (false for absent or expired entries, and it also removes a
stale entry), but leaves every counter, the analytics map, and every
surviving entry's `hitCount`/`lastAccessedAt` untouched: its cache is either
unchanged or exactly the stale key removed. -/
theorem exists_matches_get_without_effects (s : CacheState) (now : Nat)
    (key : String) :
    ((exists_ s now key).1 = ((get s now key).1).isSome)
    ∧ (exists_ s now key).2.cacheAnalytics = s.cacheAnalytics
    ∧ (exists_ s now key).2.totalRequests = s.totalRequests
    ∧ (exists_ s now key).2.totalHits = s.totalHits
    ∧ (exists_ s now key).2.totalMisses = s.totalMisses
    ∧ ((exists_ s now key).2.cache = s.cache
       ∨ (exists_ s now key).2.cache = mapDelete key s.cache) := by
  cases hc : mapGet key s.cache with
  | none => simp [exists_, get, hc]
  | some e =>
    by_cases he : e.expiresAt < now <;> simp [exists_, get, hc, he]

/-! ## C10: a miss on an absent key is attributed to category `"unknown"` -/

/-- The per-category counters stored in hour `h`'s bucket for category `ty`
(zeros when the bucket or the category slot does not exist yet). -/
def typeCountersAt (s : CacheState) (h : Nat) (ty : String) : TypeBucket :=
  (mapGet ty ((mapGet h s.cacheAnalytics).getD (freshBucket h)).byType).getD
    emptyTypeBucket

theorem typeCountersAt_updateAnalytics_other (s : CacheState) (now : Nat)
    (a : CacheAction) (ty : String) (z : Nat) (ty' : String) (h : Nat)
    (hne : ty' ≠ ty) :
    typeCountersAt (updateAnalytics s now a ty z) h ty'
      = typeCountersAt s h ty' := by
  cases a <;>
  · unfold updateAnalytics typeCountersAt
    by_cases hh : h = hourKey now
    · subst hh
      simp [mapGet_mapSet_self, mapGet_mapSet_ne _ _ hne]
    · simp [mapGet_mapSet_ne _ _ hh]

theorem typeCountersAt_updateAnalytics_miss (s : CacheState) (now : Nat)
    (ty : String) :
    (typeCountersAt (updateAnalytics s now .miss ty 0) (hourKey now) ty).misses
      = (typeCountersAt s (hourKey now) ty).misses + 1 := by
  unfold updateAnalytics typeCountersAt
  simp [mapGet_mapSet_self]

/-- Claim C10:  A `get` on an absent key records its miss under the category
`"unknown"` (`entry?.type || 'unknown'` with `entry` undefined): no other
category's per-category analytics counters change in any hour bucket, and
the `"unknown"` miss counter of the current hour increments by one. -/
theorem miss_on_absent_key_attributed_to_unknown (s : CacheState) (now : Nat)
    (key : String) (habs : mapGet key s.cache = none) :
    (∀ ty, ty ≠ "unknown" → ∀ h,
        typeCountersAt (get s now key).2 h ty = typeCountersAt s h ty)
    ∧ (typeCountersAt (get s now key).2 (hourKey now) "unknown").misses
        = (typeCountersAt s (hourKey now) "unknown").misses + 1 := by
  have hform : (get s now key).2
      = updateAnalytics
          { s with totalRequests := s.totalRequests + 1,
                   totalMisses := s.totalMisses + 1 } now .miss "unknown" 0 := by
    simp [get, habs]
  constructor
  · intro ty hty h
    rw [hform, typeCountersAt_updateAnalytics_other _ _ _ _ _ _ _ hty]
    rfl
  · rw [hform, typeCountersAt_updateAnalytics_miss]
    rfl

/-- Witness for `miss_on_absent_key_attributed_to_unknown` on the empty
state with key `"nope"`. -/
theorem miss_on_absent_key_attributed_to_unknown_witness :
    (typeCountersAt (get (emptyState defaultCacheConfig) 0 "nope").2 (hourKey 0)
        "unknown").misses
      = (typeCountersAt (emptyState defaultCacheConfig) (hourKey 0) "unknown").misses + 1
    ∧ typeCountersAt (get (emptyState defaultCacheConfig) 0 "nope").2 (hourKey 0) "user"
      = typeCountersAt (emptyState defaultCacheConfig) (hourKey 0) "user" :=
  ⟨(miss_on_absent_key_attributed_to_unknown (emptyState defaultCacheConfig) 0
      "nope" rfl).2,
   (miss_on_absent_key_attributed_to_unknown (emptyState defaultCacheConfig) 0
      "nope" rfl).1 "user" (by decide) (hourKey 0)⟩

/-! ## C2 / C3: size accounting through the admission pass -/

/-- Total byte size of a list of (evicted) entries. -/
def evictedSizes (l : List CacheEntry) : Nat := (l.map fun e => e.size).sum

theorem sizeByType_cons (t k : String) (e : CacheEntry)
    (l : List (String × CacheEntry)) :
    sizeByType t ((k, e) :: l)
      = (if typeMatches t e then e.size else 0) + sizeByType t l := by
  by_cases h : typeMatches t e <;> simp [sizeByType, List.filter_cons, h]

theorem sizeByType_mapDelete (t : String) :
    ∀ {l : List (String × CacheEntry)} {k : String} {e : CacheEntry},
      mapGet k l = some e → typeMatches t e = true →
      sizeByType t (mapDelete k l) + e.size = sizeByType t l := by
  intro l
  induction l with
  | nil => intro k e hget _; simp [mapGet] at hget
  | cons p rest ih =>
    intro k e hget hm
    obtain ⟨k₀, e₀⟩ := p
    by_cases h0 : k₀ = k
    · subst h0
      simp [mapGet] at hget
      subst hget
      have hmd : mapDelete k₀ ((k₀, e₀) :: rest) = rest := by simp [mapDelete]
      rw [hmd, sizeByType_cons, if_pos hm]
      omega
    · simp only [mapGet, if_neg h0] at hget
      simp only [mapDelete, if_neg h0]
      rw [sizeByType_cons, sizeByType_cons]
      have h1 := ih hget hm
      by_cases hm0 : typeMatches t e₀ <;> simp [hm0] <;> omega

theorem sizeByType_mapSet_le (t k : String) (e : CacheEntry) :
    ∀ l, sizeByType t (mapSet k e l) ≤ sizeByType t l + e.size := by
  intro l
  induction l with
  | nil =>
    show sizeByType t [(k, e)] ≤ sizeByType t [] + e.size
    rw [sizeByType_cons]
    by_cases h : typeMatches t e <;> simp [h, sizeByType]
  | cons p rest ih =>
    obtain ⟨k₀, e₀⟩ := p
    by_cases h0 : k₀ = k
    · subst h0
      have hms : mapSet k₀ e ((k₀, e₀) :: rest) = (k₀, e) :: rest := by
        simp [mapSet]
      rw [hms, sizeByType_cons, sizeByType_cons]
      by_cases hm : typeMatches t e <;> by_cases hm0 : typeMatches t e₀ <;>
        simp [hm, hm0] <;> omega
    · simp only [mapSet, if_neg h0]
      rw [sizeByType_cons, sizeByType_cons]
      by_cases hm0 : typeMatches t e₀ <;> simp [hm0] <;> omega

theorem le_sizeByType_mapSet (t k : String) (e : CacheEntry)
    (hm : typeMatches t e = true) :
    ∀ l, e.size ≤ sizeByType t (mapSet k e l) := by
  intro l
  induction l with
  | nil =>
    show e.size ≤ sizeByType t [(k, e)]
    rw [sizeByType_cons, if_pos hm]
    omega
  | cons p rest ih =>
    obtain ⟨k₀, e₀⟩ := p
    by_cases h0 : k₀ = k
    · subst h0
      have hms : mapSet k₀ e ((k₀, e₀) :: rest) = (k₀, e) :: rest := by
        simp [mapSet]
      rw [hms, sizeByType_cons, if_pos hm]
      omega
    · simp only [mapSet, if_neg h0]
      rw [sizeByType_cons]
      omega

theorem le_sizeByType_mapSet_of (t k : String) (e : CacheEntry) (n : Nat)
    (hm : typeMatches t e = true) (hn : n = e.size) :
    ∀ l, n ≤ sizeByType t (mapSet k e l) :=
  fun l => hn ▸ le_sizeByType_mapSet t k e hm l

/-- The two size-accounting facts about the eviction loop: the bytes removed
from the category are exactly the bytes of the returned victims, and the
loop only stops early once the freed bytes have reached the target (else it
has consumed every candidate). -/
theorem evictLoop_spec (now targetSize : Nat) (t : String) :
    ∀ (cs : List (String × CacheEntry)) (a : Nat) (s : CacheState),
      (∀ p ∈ cs, mapGet p.1 s.cache = some p.2 ∧ typeMatches t p.2 = true) →
      NodupKeys s.cache →
      (cs.map Prod.fst).Nodup →
      sizeByType t (evictLoop now targetSize cs a s).1.cache
          + evictedSizes (evictLoop now targetSize cs a s).2
        = sizeByType t s.cache
      ∧ (targetSize ≤ a + evictedSizes (evictLoop now targetSize cs a s).2
         ∨ (evictLoop now targetSize cs a s).2
             = cs.map fun p => { p.2 with status := EntryStatus.evicted }) := by
  intro cs
  induction cs with
  | nil =>
    intro a s _ _ _
    simp [evictLoop, evictedSizes]
  | cons p rest ih =>
    intro a s hmem hnd hcs
    obtain ⟨k, e⟩ := p
    by_cases hbr : targetSize ≤ a
    · simp [evictLoop, hbr, evictedSizes]
    · have hke := hmem (k, e) (List.mem_cons_self _ _)
      have hknot : k ∉ rest.map Prod.fst := (List.nodup_cons.mp hcs).1
      have hmem' : ∀ q ∈ rest,
          mapGet q.1 (updateAnalytics { s with cache := mapDelete k s.cache }
            now .evicted e.type e.size).cache = some q.2
          ∧ typeMatches t q.2 = true := by
        intro q hq
        have hne : q.1 ≠ k := by
          intro h
          exact hknot (h ▸ List.mem_map_of_mem Prod.fst hq)
        rw [updateAnalytics_cache]
        show mapGet q.1 (mapDelete k s.cache) = some q.2 ∧ _
        rw [mapGet_mapDelete_ne _ hne]
        exact hmem q (List.mem_cons_of_mem _ hq)
      have hnd1 : NodupKeys (updateAnalytics { s with cache := mapDelete k s.cache }
          now .evicted e.type e.size).cache := by
        rw [updateAnalytics_cache]
        exact nodupKeys_mapDelete k hnd
      have IH := ih (a + e.size)
        (updateAnalytics { s with cache := mapDelete k s.cache } now .evicted e.type e.size)
        hmem' hnd1 (List.nodup_cons.mp hcs).2
      have hdel : sizeByType t (mapDelete k s.cache) + e.size = sizeByType t s.cache :=
        sizeByType_mapDelete t hke.1 hke.2
      rw [updateAnalytics_cache] at IH
      simp only [evictLoop, if_neg hbr]
      constructor
      · have h1 := IH.1
        simp only [evictedSizes, List.map_cons, List.sum_cons] at h1 ⊢
        omega
      · rcases IH.2 with h2 | h2
        · left
          simp only [evictedSizes, List.map_cons, List.sum_cons] at h2 ⊢
          omega
        · right
          simp [h2]

/-- Lemma about `evictEntries` on a concrete category `t`: freed bytes are accounted to
the category, and either the target was reached or the whole category was
emptied. -/
theorem evictEntries_spec (s : CacheState) (now targetSize : Nat) (t : String)
    (hnd : NodupKeys s.cache) :
    sizeByType t (evictEntries s now (some t) targetSize).1.cache
        + evictedSizes (evictEntries s now (some t) targetSize).2
      = sizeByType t s.cache
    ∧ (targetSize ≤ evictedSizes (evictEntries s now (some t) targetSize).2
       ∨ evictedSizes (evictEntries s now (some t) targetSize).2
           = sizeByType t s.cache) := by
  have hperm : List.Perm (evictCandidates s (some t))
      (s.cache.filter fun p => matchesType (some t) p.2) :=
    sortStable_perm _ _
  have hmem : ∀ p ∈ evictCandidates s (some t),
      mapGet p.1 s.cache = some p.2 ∧ typeMatches t p.2 = true := by
    intro p hp
    have hp' := hperm.mem_iff.mp hp
    have h0 := List.mem_filter.mp hp'
    exact ⟨mapGet_of_mem hnd h0.1, h0.2⟩
  have hcs : ((evictCandidates s (some t)).map Prod.fst).Nodup := by
    have h1 := hperm.map Prod.fst
    have h2 : ((s.cache.filter fun p => matchesType (some t) p.2).map Prod.fst).Nodup :=
      hnd.sublist ((List.filter_sublist s.cache).map Prod.fst)
    exact h1.nodup_iff.mpr h2
  have H := evictLoop_spec now targetSize t (evictCandidates s (some t)) 0 s hmem hnd hcs
  unfold evictEntries
  refine ⟨H.1, ?_⟩
  rcases H.2 with h | h
  · left; simpa using h
  · right
    rw [h]
    have hcomp : evictedSizes
        ((evictCandidates s (some t)).map fun p => { p.2 with status := EntryStatus.evicted })
        = ((evictCandidates s (some t)).map fun p => p.2.size).sum := by
      simp only [evictedSizes, List.map_map]
      rfl
    rw [hcomp, (hperm.map fun p => p.2.size).sum_eq]
    rfl

/-- Quota bound after the admission pass: if the incoming entry fits the
category quota by itself, the pass leaves room for it. -/
theorem enforceMemoryLimits_bound (s : CacheState) (now : Nat) (t : String)
    (newSize : Nat) (tc : TypeConfig)
    (hnd : NodupKeys s.cache) (hne : t ≠ "")
    (hcfg : mapGet t s.cacheConfig.typeConfigs = some tc)
    (hfits : newSize ≤ tc.maxSize) :
    sizeByType t (enforceMemoryLimits s now (some t) newSize).1.cache + newSize
      ≤ tc.maxSize := by
  unfold enforceMemoryLimits
  simp only [if_neg hne, hcfg, Option.some_bind, Option.getD_some]
  by_cases hover : tc.maxSize < calculateTotalSizeByType s t + newSize
  · rw [if_pos hover]
    have H := evictEntries_spec s now (calculateTotalSizeByType s t + newSize - tc.maxSize)
      t hnd
    have h1 := H.1
    unfold calculateTotalSizeByType at hover h1 ⊢
    rcases H.2 with hbig | hall
    · unfold calculateTotalSizeByType at hbig
      omega
    · unfold calculateTotalSizeByType at hall
      omega
  · rw [if_neg hover]
    show sizeByType t s.cache + newSize ≤ tc.maxSize
    unfold calculateTotalSizeByType at hover
    omega

/-- Claim C2, amended:  After a `set` in category `type` (a configured,
non-empty category name) whose incoming entry fits the category quota by
itself, the category's active total is at most its `maxSize`.  (The claim's
full invariant fails: an entry larger than the quota is inserted anyway —
see the counterexample — and the *global* bound is never enforced by
`set`, which checks only the target category.) -/
theorem set_respects_category_quota (s : CacheState) (now : Nat)
    (key value : String) (ttl : Option Nat) (type newId : String)
    (tc : TypeConfig)
    (hnd : NodupKeys s.cache) (hne : type ≠ "")
    (hcfg : mapGet type s.cacheConfig.typeConfigs = some tc)
    (hfits : calculateSize value ≤ tc.maxSize) :
    calculateTotalSizeByType (set s now key value ttl type newId).1 type
      ≤ tc.maxSize := by
  have hb := enforceMemoryLimits_bound s now type (calculateSize value) tc
    hnd hne hcfg hfits
  unfold set calculateTotalSizeByType
  simp only [updateAnalytics_cache]
  refine le_trans (sizeByType_mapSet_le type key _ _) ?_
  exact hb

/-- Witness for `set_respects_category_quota`: a 9-byte entry into a
10-byte `user` quota. -/
def smallQuotaConfig : CacheConfig :=
  { defaultTtl := 3600, maxSize := 100000, evictionPolicy := .lru,
    compression := true, typeConfigs := [("user", ⟨1800, 10⟩)] }

def nineByteValue : String := String.mk (List.replicate 9 'x')

theorem set_respects_category_quota_witness :
    calculateTotalSizeByType
        (set (emptyState smallQuotaConfig) 0 "a" nineByteValue none "user" "id-a").1
        "user"
      ≤ 10 :=
  set_respects_category_quota (emptyState smallQuotaConfig) 0 "a" nineByteValue
    none "user" "id-a" ⟨1800, 10⟩ List.nodup_nil (by decide) (by decide) (by decide)

/-- An 11-byte payload, larger than the whole 10-byte `user` quota. -/
def elevenByteValue : String := String.mk (List.replicate 11 'x')

def oversizedSetState : CacheState × List CacheEntry :=
  set (emptyState smallQuotaConfig) 0 "a" elevenByteValue none "user" "id-a"

/-- Claim C2, counterexample:  A single `set` of an 11-byte entry into the
10-byte `user` category returns with the category's active total at 11 > 10:
the per-category invariant does not hold after every `set`. -/
theorem category_quota_violated_by_oversized_set :
    calculateTotalSizeByType oversizedSetState.1 "user" = 11
    ∧ (mapGet "user" oversizedSetState.1.cacheConfig.typeConfigs).map
        (fun tc => tc.maxSize) = some 10
    ∧ ¬ (calculateTotalSizeByType oversizedSetState.1 "user" ≤ 10) := by
  decide

/-- Claim C3, counterexample:  The same oversized `set` does *not* fail and
does *not* leave the store unchanged: the entry is inserted (there is no
`CacheEntryTooLarge` error path anywhere in `set`). -/
theorem oversized_set_still_inserts :
    (mapGet "a" oversizedSetState.1.cache).map (fun e => e.value)
        = some elevenByteValue
    ∧ (mapGet "a" oversizedSetState.1.cache).isSome = true := by
  decide

/-- Claim C3, amended:  A `set` whose entry alone exceeds its category's
`maxSize` never fails: the admission pass evicts from the category, the
oversized entry is inserted anyway, and the call returns with the category
total strictly above its quota. -/
theorem oversized_set_inserted_over_quota (s : CacheState) (now : Nat)
    (key value : String) (ttl : Option Nat) (type newId : String)
    (tc : TypeConfig)
    (hcfg : mapGet type s.cacheConfig.typeConfigs = some tc)
    (hbig : tc.maxSize < calculateSize value) :
    ((mapGet key (set s now key value ttl type newId).1.cache).map
        (fun e => e.value) = some value)
    ∧ tc.maxSize < calculateTotalSizeByType (set s now key value ttl type newId).1 type := by
  constructor
  · unfold set
    simp only [updateAnalytics_cache]
    rw [mapGet_mapSet_self]
    rfl
  · unfold set calculateTotalSizeByType
    simp only [updateAnalytics_cache]
    refine lt_of_lt_of_le hbig (le_sizeByType_mapSet_of _ _ _ _ ?_ ?_ _)
    · simp [typeMatches]
    · rfl

/-- Witness for `oversized_set_inserted_over_quota` on the concrete
oversized scenario. -/
theorem oversized_set_inserted_over_quota_witness :
    ((mapGet "a" (set (emptyState smallQuotaConfig) 0 "a" elevenByteValue none
        "user" "id-a").1.cache).map (fun e => e.value) = some elevenByteValue)
    ∧ (10 : Nat) < calculateTotalSizeByType
        (set (emptyState smallQuotaConfig) 0 "a" elevenByteValue none "user" "id-a").1
        "user" :=
  oversized_set_inserted_over_quota (emptyState smallQuotaConfig) 0 "a"
    elevenByteValue none "user" "id-a" ⟨1800, 10⟩ (by decide) (by decide)

/-! ## C9: what the analytics query actually reports -/

/-- The `i`-th hourly point of a report's breakdown (dummy zeros out of
range). -/
def hourPointAt (l : List HourPoint) (i : Nat) : HourPoint :=
  l.getD i { hour := 0, hits := 0, misses := 0, hitRate := 0, avgResponseTime := 0 }

theorem generateHourlyData_props (s : CacheState) (a b : Nat) (rand : ℚ)
    (i : Nat) (hi : i < (generateHourlyData s a b rand).length) :
    (hourPointAt (generateHourlyData s a b rand) i).hits
        = ((mapGet (hourPointAt (generateHourlyData s a b rand) i).hour
              s.cacheAnalytics).getD
            (freshBucket (hourPointAt (generateHourlyData s a b rand) i).hour)).hits
    ∧ (hourPointAt (generateHourlyData s a b rand) i).misses
        = ((mapGet (hourPointAt (generateHourlyData s a b rand) i).hour
              s.cacheAnalytics).getD
            (freshBucket (hourPointAt (generateHourlyData s a b rand) i).hour)).misses
    ∧ (hourPointAt (generateHourlyData s a b rand) i).hitRate
        = (if 0 < (hourPointAt (generateHourlyData s a b rand) i).hits
              + (hourPointAt (generateHourlyData s a b rand) i).misses
           then ((hourPointAt (generateHourlyData s a b rand) i).hits : ℚ)
              / (((hourPointAt (generateHourlyData s a b rand) i).hits : ℚ)
                + ((hourPointAt (generateHourlyData s a b rand) i).misses : ℚ))
           else 0) := by
  unfold generateHourlyData at hi ⊢
  by_cases hab : a ≤ b
  · rw [if_pos hab] at hi ⊢
    unfold hourPointAt
    rw [List.getD_eq_getElem _ _ hi]
    simp [List.getElem_map, List.getElem_range]
  · rw [if_neg hab] at hi
    simp at hi

/-- Claim C9, amended:  The report's top-level `hitRate` is the *lifetime*
ratio `totalHits / totalRequests` (0 when no requests), regardless of the
requested window; `missRate` is defined as `1 - hitRate`, so
`hitRate + missRate = 1` always (empty window included); only the per-hour
breakdown derives `hits / (hits + misses)` (0 on an empty denominator) from
the buckets inside the window. -/
theorem analytics_reported_rates (s : CacheState) (now : Nat)
    (period cacheType : Option String) (rand : ℚ) :
    (getCacheAnalytics s now period cacheType rand).hitRate
        = (if 0 < s.totalRequests
           then (s.totalHits : ℚ) / (s.totalRequests : ℚ) else 0)
    ∧ (getCacheAnalytics s now period cacheType rand).missRate
        = 1 - (getCacheAnalytics s now period cacheType rand).hitRate
    ∧ (getCacheAnalytics s now period cacheType rand).hitRate
        + (getCacheAnalytics s now period cacheType rand).missRate = 1
    ∧ ∀ i, i < (getCacheAnalytics s now period cacheType rand).hourlyData.length →
        (hourPointAt (getCacheAnalytics s now period cacheType rand).hourlyData i).hits
            = ((mapGet (hourPointAt (getCacheAnalytics s now period cacheType rand).hourlyData i).hour
                  s.cacheAnalytics).getD
                (freshBucket (hourPointAt (getCacheAnalytics s now period cacheType rand).hourlyData i).hour)).hits
        ∧ (hourPointAt (getCacheAnalytics s now period cacheType rand).hourlyData i).misses
            = ((mapGet (hourPointAt (getCacheAnalytics s now period cacheType rand).hourlyData i).hour
                  s.cacheAnalytics).getD
                (freshBucket (hourPointAt (getCacheAnalytics s now period cacheType rand).hourlyData i).hour)).misses
        ∧ (hourPointAt (getCacheAnalytics s now period cacheType rand).hourlyData i).hitRate
            = (if 0 < (hourPointAt (getCacheAnalytics s now period cacheType rand).hourlyData i).hits
                  + (hourPointAt (getCacheAnalytics s now period cacheType rand).hourlyData i).misses
               then ((hourPointAt (getCacheAnalytics s now period cacheType rand).hourlyData i).hits : ℚ)
                  / (((hourPointAt (getCacheAnalytics s now period cacheType rand).hourlyData i).hits : ℚ)
                    + ((hourPointAt (getCacheAnalytics s now period cacheType rand).hourlyData i).misses : ℚ))
               else 0) := by
  refine ⟨rfl, rfl, ?_, ?_⟩
  · have h2 : (getCacheAnalytics s now period cacheType rand).missRate
        = 1 - (getCacheAnalytics s now period cacheType rand).hitRate := rfl
    rw [h2]
    ring
  · intro i hi
    exact generateHourlyData_props s _ now rand i hi

/-- Witness for `analytics_reported_rates` at a concrete empty state and a
1-hour window. -/
theorem analytics_reported_rates_witness :
    ((getCacheAnalytics (emptyState defaultCacheConfig) 7200000 (some "1h") none 0).hitRate
        + (getCacheAnalytics (emptyState defaultCacheConfig) 7200000 (some "1h") none 0).missRate
      = 1)
    ∧ (hourPointAt
          (getCacheAnalytics (emptyState defaultCacheConfig) 7200000 (some "1h") none 0).hourlyData
          0).hits
        = ((mapGet
              (hourPointAt
                (getCacheAnalytics (emptyState defaultCacheConfig) 7200000 (some "1h") none 0).hourlyData
                0).hour
              (emptyState defaultCacheConfig).cacheAnalytics).getD
            (freshBucket
              (hourPointAt
                (getCacheAnalytics (emptyState defaultCacheConfig) 7200000 (some "1h") none 0).hourlyData
                0).hour)).hits :=
  ⟨(analytics_reported_rates (emptyState defaultCacheConfig) 7200000 (some "1h") none 0).2.2.1,
   ((analytics_reported_rates (emptyState defaultCacheConfig) 7200000 (some "1h") none 0).2.2.2
      0 (by decide)).1⟩

/-- A run whose only in-window event is one miss: a hit is recorded at hour
0, a miss at hour 27, and the analytics query at `now = 100000001` asks for
the 1-hour window. -/
def analyticsScenarioConfig : CacheConfig :=
  { defaultTtl := 3600, maxSize := 1000000, evictionPolicy := .lru,
    compression := true, typeConfigs := [("system", ⟨600, 100000⟩)] }

def analyticsScenarioState : CacheState :=
  (get (get (set (emptyState analyticsScenarioConfig) 0 "k" "v" none "system" "i1").1
      1000 "k").2
    100000000 "absent").2

def analyticsScenarioReport : AnalyticsReport :=
  getCacheAnalytics analyticsScenarioState 100000001 (some "1h") none 0

/-- Claim C9, counterexample:  The requested 1-hour window contains 0 hits and
1 miss, so the claim requires a reported hit rate of `0 / (0 + 1) = 0`; the
code reports `1/2`, because it derives the top-level rate from the lifetime
counters (1 hit, 2 requests), not from the window. -/
theorem analytics_hitrate_not_windowed :
    ((analyticsScenarioReport.hourlyData.map fun p => p.hits).sum = 0)
    ∧ ((analyticsScenarioReport.hourlyData.map fun p => p.misses).sum = 1)
    ∧ analyticsScenarioReport.hitRate = 1 / 2
    ∧ (1 / 2 : ℚ) ≠ 0 := by
  refine ⟨by decide, by decide, ?_, by norm_num⟩
  have h1 : analyticsScenarioState.totalHits = 1 := by decide
  have h2 : analyticsScenarioState.totalRequests = 2 := by decide
  show (getCacheAnalytics analyticsScenarioState 100000001 (some "1h") none 0).hitRate
      = 1 / 2
  simp [getCacheAnalytics, getAnalyticsData, h1, h2]

end CacheModel
